import Mathlib

/-!
Verification of the aruco marker-detection ROS node
(`src/aruco/src/ros/ArucoNode.cpp`) against its natural-language
specification.  Every definition in the `ArucoNode` namespace is a
shallow embedding of the corresponding C++ code; doubles are modelled
as real numbers, C++ `int` as `Int`, the marker registry `std::vector`
as a `List`.
-/

set_option autoImplicit false

namespace ArucoNode

/-- A 3-vector of doubles, modelled as a triple of reals. -/
abbrev Vec3 := ℝ × ℝ × ℝ

/-! ### Coordinate-convention conversion

`onFrame` (lines 238–247): on output, both the camera position and the
camera rotation stored internally in OpenCV convention `(a, b, c)` are
published in ROS convention as `(c, -a, -b)`:
`message.x = v(2); message.y = -v(0); message.z = -v(1)`. -/

/-- Output conversion, OpenCV (internal) convention to ROS convention,
embedding `ArucoNode.cpp` lines 240–246; applied to both the position
and the rotation vector. -/
def cvToRos (v : Vec3) : Vec3 :=
  (v.2.2, -v.1, -v.2.1)

/-- Registration-time ingestion of a marker world *position* given in ROS
convention, embedding `ArucoNode.cpp` line 565:
`Point3d(-values[2], -values[3], -values[1])` where the position fields are
`values[1..3]`. -/
def rosPositionToCv (v : Vec3) : Vec3 :=
  (-v.2.1, -v.2.2, -v.1)

/-- Registration-time ingestion of a marker world *rotation* given in ROS
convention, embedding `ArucoNode.cpp` line 565:
`Point3d(-values[5], -values[6], values[4])` where the rotation fields are
`values[4..6]`. -/
def rosRotationToCv (v : Vec3) : Vec3 :=
  (-v.2.1, -v.2.2, v.1)

/-! ### Adaptive threshold block-size controller

`main` (lines 501–506) computes the initial block size; `onFrame`
(lines 165–173) advances it whenever the detector returned zero
candidates. -/

/-- Initial block size, embedding `ArucoNode.cpp` lines 502–506:
`theshold_block_size = (min + max) / 2; if (theshold_block_size % 2 == 0)
theshold_block_size++;`.  `Int.tdiv` is C++ truncating division. -/
def initialBlockSize (bmin bmax : Int) : Int :=
  let mid := Int.tdiv (bmin + bmax) 2
  if mid % 2 = 0 then mid + 1 else mid

/-- Block-size advance on a frame with zero candidates, embedding
`ArucoNode.cpp` lines 167–172: `bs += 2; if (bs > max) bs = min;`. -/
def advanceBlockSize (bmin bmax bs : Int) : Int :=
  let bs2 := bs + 2
  if bs2 > bmax then bmin else bs2

/-- One frame's effect on the block size: zero candidates advance it
(`ArucoNode.cpp` lines 165–173), a frame with candidates leaves it
unchanged.  `found = true` means the detection pass returned at least one
candidate. -/
def stepBlockSize (bmin bmax : Int) (bs : Int) (found : Bool) : Int :=
  if found then bs else advanceBlockSize bmin bmax bs

/-! ### Axis-angle to quaternion conversion

`onFrame` lines 268–290: the published pose orientation is computed from
the rotation vector `(x, y, z)`. -/

/-- A quaternion message, mirroring `pose.orientation.{x,y,z,w}`. -/
structure Quat where
  x : ℝ
  y : ℝ
  z : ℝ
  w : ℝ

/-- Axis-angle to quaternion conversion, embedding `ArucoNode.cpp`
lines 268–290: `angle = sqrt(x*x + y*y + z*z)`; if `angle > 0` the
quaternion is `(x·sin(angle/2)/angle, y·sin(angle/2)/angle,
z·sin(angle/2)/angle, cos(angle/2))`, otherwise `(0, 0, 0, 1)`. -/
noncomputable def quatFromRotation (x y z : ℝ) : Quat :=
  let angle := Real.sqrt (x * x + y * y + z * z)
  if angle > 0 then
    { x := x * Real.sin (angle / 2) / angle
      y := y * Real.sin (angle / 2) / angle
      z := z * Real.sin (angle / 2) / angle
      w := Real.cos (angle / 2) }
  else
    { x := 0, y := 0, z := 0, w := 1 }

/-- Squared Euclidean norm of a quaternion. -/
def quatNormSq (q : Quat) : ℝ :=
  q.x ^ 2 + q.y ^ 2 + q.z ^ 2 + q.w ^ 2

/-! ### Marker registry

`ArucoMarkerInfo` entries are stored in the global `vector<ArucoMarkerInfo>
known`.  The constructor of `ArucoMarkerInfo` (size, world position, world
orientation, derived world corners) lives outside `ArucoNode.cpp`; here an
entry carries its attributes as plain data, including the four derived
world-frame corner points used by the matching loop. -/

/-- A registry entry: `ArucoMarkerInfo` as used by `ArucoNode.cpp`
(id, physical size, world position, world Euler rotation, four derived
world-frame corner points). -/
structure ArucoMarkerInfo where
  id : Int
  size : ℝ
  position : Vec3
  rotation : Vec3
  world : Fin 4 → Vec3

/-- A detected marker: `ArucoMarker` as used by `ArucoNode.cpp`
(id and four projected image-plane corner points). -/
structure ArucoMarker where
  id : Int
  projected : Fin 4 → ℝ × ℝ

/-- Erase the first entry with the given id, if any: the
`for … if (known[i].id == id) { known.erase(known.begin() + i); break; }`
loop shared by `onMarkerRegister` (lines 408–416) and `onMarkerRemove`
(lines 428–436). -/
def eraseFirstById : List ArucoMarkerInfo → Int → List ArucoMarkerInfo
  | [], _ => []
  | x :: xs, i => if x.id = i then xs else x :: eraseFirstById xs i

/-- `onMarkerRegister` (lines 406–420): erase the first entry carrying the
new marker's id, then `push_back` the new entry. -/
def registerMarker (known : List ArucoMarkerInfo) (m : ArucoMarkerInfo) :
    List ArucoMarkerInfo :=
  eraseFirstById known m.id ++ [m]

/-- `onMarkerRemove` (lines 426–437): erase the first entry carrying the
id, silently doing nothing when none matches. -/
def removeMarker (known : List ArucoMarkerInfo) (i : Int) :
    List ArucoMarkerInfo :=
  eraseFirstById known i

/-! ### Camera calibration latching

`onCameraInfo` (lines 377–400): the whole body is guarded by
`if (!calibrated)`. -/

/-- The mutable camera-model state: the `calibrated` flag, the 3×3
calibration matrix (row-major, `calibration.at<double>(i/3, i%3)` is
slot `i`) and the 5-element distortion vector. -/
structure CameraState where
  calibrated : Bool
  calibration : Fin 9 → ℝ
  distortion : Fin 5 → ℝ

/-- A camera-info message: intrinsics `k` (9 doubles) and distortion `d`
(5 doubles). -/
structure CameraInfoMsg where
  k : Fin 9 → ℝ
  d : Fin 5 → ℝ

/-- `onCameraInfo` (lines 377–400): when not yet calibrated, set the flag
and copy `msg->k` into the calibration matrix and `msg->d` into the
distortion vector; when already calibrated, do nothing. -/
def onCameraInfo (s : CameraState) (msg : CameraInfoMsg) : CameraState :=
  if s.calibrated then s
  else { calibrated := true, calibration := msg.k, distortion := msg.d }

/-! ### `stringToDoubleArray` (lines 448–459)

Strings are modelled as lists of characters.  `string::find(delimiter)`
is the first index at which the delimiter occurs as a substring. -/

/-- First index at which `delim` occurs as a contiguous substring of
`data`; `none` models `string::npos`. -/
def findSub (data delim : List Char) : Option Nat :=
  if delim.isPrefixOf data then some 0
  else
    match data with
    | [] => none
    | _ :: rest => (findSub rest delim).map (· + 1)

/-- `string::npos` as a 64-bit `size_t` value, `2^64 - 1`. -/
def npos : Nat := 2 ^ 64 - 1

/-- Value of the 32-bit `unsigned int pos` after the assignment
`pos = data.find(delimiter)` (line 452): the 64-bit `size_t` find result
(`npos` when the delimiter does not occur) truncated modulo `2^32`. -/
def posAssign (found : Option Nat) : Nat :=
  (match found with
   | some p => p
   | none => npos) % 2 ^ 32

/-- One run of the `while` loop of `stringToDoubleArray` (lines 450–458),
with the C++ integer widths embedded.  Each iteration assigns the 64-bit
find result to the 32-bit `unsigned int pos` (truncating `npos`), exits if
the zero-extended `pos` equals the 64-bit `npos` (on LP64 this comparison
can never succeed), takes `data.substr(0, pos)` — which is the whole
remaining string when the delimiter was not found, since `substr` clamps —
parses it with `stod`, and erases through the delimiter (`erase` clamps
likewise).  `stod` is the external C library conversion, `none` meaning it
throws `std::invalid_argument`.  The result is the list of `(slot, token)`
writes performed, paired with `true` when the run ended in an uncaught
`stod` exception and `false` when the loop exited normally.  The guard
`k < count` is carried as `remaining = count - k`, which decreases by one
exactly as `k` increases by one. -/
def stringToDoubleArrayAux (stod : List Char → Option ℝ)
    (data delim : List Char) (remaining k : Nat) :
    List (Nat × List Char) × Bool :=
  match remaining with
  | 0 => ([], false)
  | r + 1 =>
      let pos := posAssign (findSub data delim)
      if pos = npos then ([], false)
      else
        let token := data.take pos
        match stod token with
        | none => ([], true)
        | some _ =>
            let rest := stringToDoubleArrayAux stod
              (data.drop (pos + delim.length)) delim r (k + 1)
            ((k, token) :: rest.1, rest.2)

/-- `stringToDoubleArray data values count delimiter` (lines 448–459):
the writes it performs into `values`, in order, and whether it threw.
The loop starts at `k = 0`, so `count` iterations are permitted. -/
def stringToDoubleArrayRun (stod : List Char → Option ℝ)
    (data delim : List Char) (count : Nat) :
    List (Nat × List Char) × Bool :=
  stringToDoubleArrayAux stod data delim count 0

/-- Apply the writes of `stringToDoubleArray` to a concrete `values` array
(modelled as `Fin n → ℝ`), parsing each token with `stod` (every recorded
write carries a token `stod` accepted).  Slots not written keep their
previous (in C++: indeterminate) contents. -/
def applyWrites {n : Nat} (stod : List Char → Option ℝ)
    (writes : List (Nat × List Char)) (values : Fin n → ℝ) : Fin n → ℝ :=
  writes.foldl
    (fun vs wr => fun i =>
      if (i : Nat) = wr.1 then (stod wr.2).getD (vs i) else vs i) values

/-! ### Distortion-override configuration path

`main`, lines 528–543: the `distortion` parameter is read into the outer
`data`, but inside the `if (data != "")` block a fresh local
`string data;` is declared, shadowing the parameter with an empty string,
and that empty string is what `stringToDoubleArray` parses. -/

/-- Embedding of `main` lines 528–543.  `param` is the configured
distortion-override string; `values` is the (uninitialized, hence
arbitrary) stack array `double values[5]`.  The inner `string data;`
declaration shadows the parameter, so the parsed string is always empty.
The result is `none` when `stringToDoubleArray` throws (the exception
propagates out of `main`, so lines 537–542 never execute and the process
dies before any state change), and otherwise `some` of the camera state
after the copy loop and `calibrated = true`. -/
def distortionOverride (stod : List Char → Option ℝ) (param : List Char)
    (values : Fin 5 → ℝ) (s : CameraState) : Option CameraState :=
  if param ≠ [] then
    let data : List Char := []
    let run := stringToDoubleArrayRun stod data ['_'] 5
    if run.2 then none
    else
      let parsed := applyWrites stod run.1 values
      some { s with distortion := fun i => parsed i, calibrated := true }
  else some s

/-! ### Per-frame correspondence building

`onFrame` lines 176–194: the nested loop over detected markers and known
registry entries pushes, for each id match, the marker's four projected
corners onto `projected`, the entry's four world corners onto `world`,
and the marker onto `found`. -/

/-- The four projected image-plane corners of a detected marker, in push
order (`markers[i].projected[k]`, `k = 0..3`). -/
def projectedPoints (m : ArucoMarker) : List (ℝ × ℝ) :=
  [m.projected 0, m.projected 1, m.projected 2, m.projected 3]

/-- The four world-frame corners of a registry entry, in push order
(`known[j].world[k]`, `k = 0..3`). -/
def worldPoints (j : ArucoMarkerInfo) : List Vec3 :=
  [j.world 0, j.world 1, j.world 2, j.world 3]

/-- One iteration of the inner `for j` loop of `onFrame` (lines 179–193)
for a fixed detected marker `m`: on an id match, append `m`'s four
projected corners, the entry's four world corners, and `m` itself to the
accumulated `(projected, world, found)` triple. -/
def matchStep (m : ArucoMarker)
    (acc : List (ℝ × ℝ) × List Vec3 × List ArucoMarker)
    (j : ArucoMarkerInfo) :
    List (ℝ × ℝ) × List Vec3 × List ArucoMarker :=
  if m.id = j.id then
    (acc.1 ++ projectedPoints m, acc.2.1 ++ worldPoints j, acc.2.2 ++ [m])
  else acc

/-- The nested matching loop of `onFrame` (lines 176–194): fold the inner
loop over every detected marker, starting from empty `projected`, `world`
and `found` vectors. -/
def frameCorrespondences (markers : List ArucoMarker)
    (known : List ArucoMarkerInfo) :
    List (ℝ × ℝ) × List Vec3 × List ArucoMarker :=
  markers.foldl (fun acc m => known.foldl (matchStep m) acc) ([], [], [])

/-! ### Pose inversion (lines 214–221) -/

/-- View a 3-vector as a column (a `Fin 3`-indexed function) for matrix
application. -/
def vecToCol (v : Vec3) : Fin 3 → ℝ :=
  ![v.1, v.2.1, v.2.2]

/-- View a column back as a 3-vector. -/
def colToVec (f : Fin 3 → ℝ) : Vec3 :=
  (f 0, f 1, f 2)

/-- The pose-inversion step of `onFrame` (lines 214–221).  `rodToMat` and
`matToRod` are the two directions of OpenCV's external `Rodrigues`
conversion; `rvec` and `tvec` are the rotation and translation solved by
`solvePnP`.  The code computes `rodrigues = Rodrigues(rvec)`,
`camera_rotation = Rodrigues(rodrigues.t())` and
`camera_position = -rodrigues.t() * tvec`. -/
noncomputable def invertCameraPose
    (rodToMat : Vec3 → Matrix (Fin 3) (Fin 3) ℝ)
    (matToRod : Matrix (Fin 3) (Fin 3) ℝ → Vec3)
    (rvec tvec : Vec3) : Vec3 × Vec3 :=
  let rodrigues := rodToMat rvec
  let camera_rotation := matToRod rodrigues.transpose
  let camera_position :=
    colToVec (-(rodrigues.transpose.mulVec (vecToCol tvec)))
  (camera_position, camera_rotation)

/-! ### The frame handler -/

/-- The observable outcome of one `onFrame` call: the published
visibility flag, the optionally published position, rotation and pose
messages, and the threshold block size after the call. -/
structure FrameResult where
  visible : Bool
  position : Option Vec3
  rotation : Option Vec3
  pose : Option (Vec3 × Quat)
  blockSize : Int

/-- Embedding of the core of `onFrame` (lines 147–312), with the external
OpenCV calls abstracted: `solve` is `solvePnP` (returning the solved
rotation and translation vectors), `rodToMat`/`matToRod` are `Rodrigues`.
The detector's output for this frame is `markers`.  Lines 165–173 advance
the block size when no candidates were detected; lines 176–194 build the
correspondences; lines 203–292 solve, invert, convert coordinates
(lines 227–247), convert to a quaternion and publish; lines 309–312
publish `visible = (world.size() != 0)`. -/
noncomputable def onFrameStep
    (solve : (Fin 9 → ℝ) → (Fin 5 → ℝ) → List Vec3 → List (ℝ × ℝ) →
      Vec3 × Vec3)
    (rodToMat : Vec3 → Matrix (Fin 3) (Fin 3) ℝ)
    (matToRod : Matrix (Fin 3) (Fin 3) ℝ → Vec3)
    (useOpencvCoords : Bool) (cam : CameraState)
    (bmin bmax : Int) (known : List ArucoMarkerInfo)
    (bs : Int) (markers : List ArucoMarker) : FrameResult :=
  let bs1 := if markers.length = 0 then advanceBlockSize bmin bmax bs else bs
  let res := frameCorrespondences markers known
  let projected := res.1
  let world := res.2.1
  if world.length > 0 then
    let rt := solve cam.calibration cam.distortion world projected
    let pr := invertCameraPose rodToMat matToRod rt.1 rt.2
    let message_position :=
      if useOpencvCoords then pr.1 else cvToRos pr.1
    let message_rotation :=
      if useOpencvCoords then pr.2 else cvToRos pr.2
    let orientation :=
      quatFromRotation message_rotation.1 message_rotation.2.1
        message_rotation.2.2
    { visible := world.length != 0
      position := some message_position
      rotation := some message_rotation
      pose := some (message_position, orientation)
      blockSize := bs1 }
  else
    { visible := world.length != 0
      position := none
      rotation := none
      pose := none
      blockSize := bs1 }

/-! ### Sample data for concrete evaluation -/

/-- A sample registry entry with id 7 (first attribute set). -/
def sampleMarkerA : ArucoMarkerInfo :=
  ⟨7, 1, (0, 0, 0), (0, 0, 0), fun _ => (0, 0, 0)⟩

/-- A sample registry entry with id 7 (second attribute set). -/
def sampleMarkerB : ArucoMarkerInfo :=
  ⟨7, 2, (1, 0, 0), (0, 0, 0), fun _ => (0, 0, 0)⟩

/-- A concrete stand-in for the vector-to-matrix direction of `Rodrigues`
(used only to instantiate theorems at a concrete input). -/
def idRodToMat : Vec3 → Matrix (Fin 3) (Fin 3) ℝ := fun _ => 1

/-- A concrete stand-in for the matrix-to-vector direction of `Rodrigues`
(used only to instantiate theorems at a concrete input). -/
def zeroMatToRod : Matrix (Fin 3) (Fin 3) ℝ → Vec3 := fun _ => (0, 0, 0)

/-- An uncalibrated camera state with zeroed matrices. -/
def sampleCameraState : CameraState :=
  ⟨false, fun _ => 0, fun _ => 0⟩

/-- A sample camera-info message. -/
def sampleMsgA : CameraInfoMsg := ⟨fun _ => 1, fun _ => 2⟩

/-- A second sample camera-info message. -/
def sampleMsgB : CameraInfoMsg := ⟨fun _ => 3, fun _ => 4⟩

/-- A concrete stand-in for `stod` (used only to instantiate theorems at
a concrete input): it fails on the empty string, as the C library `stod`
does (`std::invalid_argument`), and parses any other token to `0`. -/
noncomputable def sampleStod : List Char → Option ℝ :=
  fun s => if s = [] then none else some 0

/-! ## Theorems -/

/-- C1: the coordinate-convention round trip fails for position vectors.
The output mapping is `(a,b,c) ↦ (c,-a,-b)` and the rotation ingestion
`(a,b,c) ↦ (-b,-c,a)` round-trips exactly, but the position ingestion of
line 565 is `(a,b,c) ↦ (-b,-c,-a)` — its third component contradicts the
code's own comment `(-Y, -Z, +X)` — so the round trip of the position
`(1,0,0)` yields `(-1,0,0)`, not `(1,0,0)`, and the ingestion mapping is
not applied identically to position and rotation vectors. -/
theorem c1_position_roundtrip_bug :
    cvToRos (rosPositionToCv (1, 0, 0)) = (-1, 0, 0) ∧
    cvToRos (rosPositionToCv (1, 0, 0)) ≠ ((1 : ℝ), 0, 0) ∧
    (∀ v : Vec3, cvToRos (rosRotationToCv v) = v) ∧
    rosPositionToCv (1, 0, 0) ≠ rosRotationToCv (1, 0, 0) := by
  refine ⟨?_, ?_, ?_, ?_⟩
  · simp [cvToRos, rosPositionToCv]
  · simp [cvToRos, rosPositionToCv, Prod.ext_iff]
    norm_num
  · intro v
    simp [cvToRos, rosRotationToCv]
  · simp [rosPositionToCv, rosRotationToCv, Prod.ext_iff]
    norm_num

/-- The initial block size lies in `[bmin, bmax]` and is odd when both
bounds are odd and `bmin ≤ bmax`. -/
theorem initialBlockSize_mem (bmin bmax : Int)
    (hmin : bmin % 2 = 1) (hmax : bmax % 2 = 1) (hle : bmin ≤ bmax) :
    bmin ≤ initialBlockSize bmin bmax ∧
      initialBlockSize bmin bmax ≤ bmax ∧
      initialBlockSize bmin bmax % 2 = 1 := by
  have h2 : (2 : Int) ∣ bmin + bmax := by omega
  obtain ⟨k, hk⟩ := h2
  have hmid : Int.tdiv (bmin + bmax) 2 = k := by
    rw [hk]
    exact Int.mul_tdiv_cancel_left k (by norm_num)
  unfold initialBlockSize
  rw [hmid]
  dsimp only
  split <;> omega

/-- One block-size transition preserves membership in `[bmin, bmax]` and
oddness, for odd bounds with `bmin ≤ bmax`. -/
theorem stepBlockSize_mem (bmin bmax : Int)
    (hmin : bmin % 2 = 1) (hmax : bmax % 2 = 1) (hle : bmin ≤ bmax)
    (bs : Int) (e : Bool)
    (h : bmin ≤ bs ∧ bs ≤ bmax ∧ bs % 2 = 1) :
    bmin ≤ stepBlockSize bmin bmax bs e ∧
      stepBlockSize bmin bmax bs e ≤ bmax ∧
      stepBlockSize bmin bmax bs e % 2 = 1 := by
  unfold stepBlockSize advanceBlockSize
  split
  · exact h
  · dsimp only
    split <;> omega

/-- C2: starting from the forced-odd midpoint, any sequence of per-frame
transitions (`true` = candidates found, leave unchanged; `false` = zero
candidates, advance by 2 wrapping to `bmin` past `bmax`) keeps the
threshold block size inside `[bmin, bmax]` and odd, provided the
configured bounds are odd and `bmin ≤ bmax`. -/
theorem c2_blockSize_invariant (bmin bmax : Int)
    (hmin : bmin % 2 = 1) (hmax : bmax % 2 = 1) (hle : bmin ≤ bmax)
    (events : List Bool) :
    bmin ≤ events.foldl (stepBlockSize bmin bmax)
        (initialBlockSize bmin bmax) ∧
      events.foldl (stepBlockSize bmin bmax)
        (initialBlockSize bmin bmax) ≤ bmax ∧
      events.foldl (stepBlockSize bmin bmax)
        (initialBlockSize bmin bmax) % 2 = 1 := by
  have hinit := initialBlockSize_mem bmin bmax hmin hmax hle
  generalize initialBlockSize bmin bmax = bs at hinit
  induction events generalizing bs with
  | nil => exact hinit
  | cons e es ih =>
      exact ih _ (stepBlockSize_mem bmin bmax hmin hmax hle bs e hinit)

/-- Witness for C2 at `bmin = 3`, `bmax = 21` and the transition sequence
`[false, true, false]`. -/
theorem c2_blockSize_invariant_witness :
    ((3 : Int) % 2 = 1) ∧ ((21 : Int) % 2 = 1) ∧ ((3 : Int) ≤ 21) ∧
      (3 ≤ [false, true, false].foldl (stepBlockSize 3 21)
          (initialBlockSize 3 21) ∧
        [false, true, false].foldl (stepBlockSize 3 21)
          (initialBlockSize 3 21) ≤ 21 ∧
        [false, true, false].foldl (stepBlockSize 3 21)
          (initialBlockSize 3 21) % 2 = 1) :=
  ⟨by decide, by decide, by decide,
    c2_blockSize_invariant 3 21 (by decide) (by decide) (by decide)
      [false, true, false]⟩

/-- C3: the axis-angle to quaternion conversion of lines 268–290 maps the
zero rotation vector to exactly the identity quaternion `(0,0,0,1)`, and
any rotation vector `(x,y,z)` of positive magnitude
`angle = √(x²+y²+z²)` to
`(x·sin(angle/2)/angle, y·sin(angle/2)/angle, z·sin(angle/2)/angle,
cos(angle/2))`, a quaternion of unit norm whose scalar part is the cosine
of half the input vector's magnitude. -/
theorem c3_quatFromRotation (x y z : ℝ)
    (h : 0 < Real.sqrt (x * x + y * y + z * z)) :
    quatFromRotation 0 0 0 = ⟨0, 0, 0, 1⟩ ∧
    quatFromRotation x y z =
      ⟨x * Real.sin (Real.sqrt (x * x + y * y + z * z) / 2) /
          Real.sqrt (x * x + y * y + z * z),
        y * Real.sin (Real.sqrt (x * x + y * y + z * z) / 2) /
          Real.sqrt (x * x + y * y + z * z),
        z * Real.sin (Real.sqrt (x * x + y * y + z * z) / 2) /
          Real.sqrt (x * x + y * y + z * z),
        Real.cos (Real.sqrt (x * x + y * y + z * z) / 2)⟩ ∧
    quatNormSq (quatFromRotation x y z) = 1 ∧
    (quatFromRotation x y z).w =
      Real.cos (Real.sqrt (x * x + y * y + z * z) / 2) := by
  have hzero : quatFromRotation 0 0 0 = ⟨0, 0, 0, 1⟩ := by
    unfold quatFromRotation
    norm_num
  have hform : quatFromRotation x y z =
      ⟨x * Real.sin (Real.sqrt (x * x + y * y + z * z) / 2) /
          Real.sqrt (x * x + y * y + z * z),
        y * Real.sin (Real.sqrt (x * x + y * y + z * z) / 2) /
          Real.sqrt (x * x + y * y + z * z),
        z * Real.sin (Real.sqrt (x * x + y * y + z * z) / 2) /
          Real.sqrt (x * x + y * y + z * z),
        Real.cos (Real.sqrt (x * x + y * y + z * z) / 2)⟩ := by
    unfold quatFromRotation
    dsimp only
    rw [if_pos h]
  have hS : 0 < x * x + y * y + z * z := Real.sqrt_pos.mp h
  have ha2 : Real.sqrt (x * x + y * y + z * z) ^ 2 = x * x + y * y + z * z :=
    Real.sq_sqrt (le_of_lt hS)
  have hsc :
      Real.sin (Real.sqrt (x * x + y * y + z * z) / 2) ^ 2 +
        Real.cos (Real.sqrt (x * x + y * y + z * z) / 2) ^ 2 = 1 :=
    Real.sin_sq_add_cos_sq _
  have hnorm : quatNormSq (quatFromRotation x y z) = 1 := by
    rw [hform]
    unfold quatNormSq
    dsimp only
    have expand :
        (x * Real.sin (Real.sqrt (x * x + y * y + z * z) / 2) /
            Real.sqrt (x * x + y * y + z * z)) ^ 2 +
          (y * Real.sin (Real.sqrt (x * x + y * y + z * z) / 2) /
            Real.sqrt (x * x + y * y + z * z)) ^ 2 +
          (z * Real.sin (Real.sqrt (x * x + y * y + z * z) / 2) /
            Real.sqrt (x * x + y * y + z * z)) ^ 2 +
          Real.cos (Real.sqrt (x * x + y * y + z * z) / 2) ^ 2 =
          (x * x + y * y + z * z) /
              Real.sqrt (x * x + y * y + z * z) ^ 2 *
              Real.sin (Real.sqrt (x * x + y * y + z * z) / 2) ^ 2 +
            Real.cos (Real.sqrt (x * x + y * y + z * z) / 2) ^ 2 := by
      ring
    rw [expand, ha2, div_self (ne_of_gt hS), one_mul, hsc]
  exact ⟨hzero, hform, hnorm, by rw [hform]⟩

/-- Witness for C3 at the rotation vector `(3, 0, 0)`. -/
theorem c3_quatFromRotation_witness :
    0 < Real.sqrt (3 * 3 + 0 * 0 + 0 * 0) ∧
      (quatFromRotation 0 0 0 = ⟨0, 0, 0, 1⟩ ∧
        quatFromRotation 3 0 0 =
          ⟨3 * Real.sin (Real.sqrt (3 * 3 + 0 * 0 + 0 * 0) / 2) /
              Real.sqrt (3 * 3 + 0 * 0 + 0 * 0),
            0 * Real.sin (Real.sqrt (3 * 3 + 0 * 0 + 0 * 0) / 2) /
              Real.sqrt (3 * 3 + 0 * 0 + 0 * 0),
            0 * Real.sin (Real.sqrt (3 * 3 + 0 * 0 + 0 * 0) / 2) /
              Real.sqrt (3 * 3 + 0 * 0 + 0 * 0),
            Real.cos (Real.sqrt (3 * 3 + 0 * 0 + 0 * 0) / 2)⟩ ∧
        quatNormSq (quatFromRotation 3 0 0) = 1 ∧
        (quatFromRotation 3 0 0).w =
          Real.cos (Real.sqrt (3 * 3 + 0 * 0 + 0 * 0) / 2)) :=
  ⟨Real.sqrt_pos.mpr (by norm_num),
    c3_quatFromRotation 3 0 0 (Real.sqrt_pos.mpr (by norm_num))⟩

/-- Erasing by an id that no entry carries is the identity. -/
theorem eraseFirstById_of_forall_ne (l : List ArucoMarkerInfo) (i : Int)
    (h : ∀ x ∈ l, x.id ≠ i) : eraseFirstById l i = l := by
  induction l with
  | nil => rfl
  | cons x xs ih =>
      rw [eraseFirstById, if_neg (h x (by simp)),
        ih fun y hy => h y (by simp [hy])]

/-- Erasing by an id distributes past a prefix free of that id. -/
theorem eraseFirstById_append (l l' : List ArucoMarkerInfo) (i : Int)
    (h : ∀ x ∈ l, x.id ≠ i) :
    eraseFirstById (l ++ l') i = l ++ eraseFirstById l' i := by
  induction l with
  | nil => rfl
  | cons x xs ih =>
      rw [List.cons_append, eraseFirstById, if_neg (h x (by simp)),
        ih fun y hy => h y (by simp [hy]), List.cons_append]

/-- C4: registry semantics of `onMarkerRegister` and `onMarkerRemove`.
Registering always inserts the new entry; registering the same id twice
into a registry that did not carry that id leaves exactly one entry for
it, carrying the second attribute set; removing an absent id leaves the
registry unchanged; and when the registry carries at most one entry with
an id, a second removal of that id is a no-op. -/
theorem c4_registry :
    (∀ (l : List ArucoMarkerInfo) (m : ArucoMarkerInfo),
      m ∈ registerMarker l m) ∧
    (∀ (l : List ArucoMarkerInfo) (m1 m2 : ArucoMarkerInfo),
      m1.id = m2.id → (∀ x ∈ l, x.id ≠ m2.id) →
      (registerMarker (registerMarker l m1) m2).filter
        (fun x => x.id = m2.id) = [m2]) ∧
    (∀ (l : List ArucoMarkerInfo) (i : Int),
      (∀ x ∈ l, x.id ≠ i) → removeMarker l i = l) ∧
    (∀ (l : List ArucoMarkerInfo) (i : Int),
      (l.filter (fun x => x.id = i)).length ≤ 1 →
      removeMarker (removeMarker l i) i = removeMarker l i) := by
  refine ⟨?_, ?_, ?_, ?_⟩
  · intro l m
    simp [registerMarker]
  · intro l m1 m2 hid habs
    have h1 : registerMarker l m1 = l ++ [m1] := by
      rw [registerMarker, eraseFirstById_of_forall_ne l m1.id
        fun x hx => hid ▸ habs x hx]
    have h2 : eraseFirstById (l ++ [m1]) m2.id = l := by
      rw [eraseFirstById_append l [m1] m2.id habs, eraseFirstById,
        if_pos hid]
      simp
    rw [h1, registerMarker, h2]
    rw [List.filter_append]
    have : l.filter (fun x => x.id = m2.id) = [] := by
      rw [List.filter_eq_nil_iff]
      intro x hx
      simpa using habs x hx
    simp [this]
  · intro l i h
    exact eraseFirstById_of_forall_ne l i h
  · intro l i hcount
    unfold removeMarker
    induction l with
    | nil => rfl
    | cons x xs ih =>
        by_cases hx : x.id = i
        · rw [eraseFirstById, if_pos hx]
          have hxs : ∀ y ∈ xs, y.id ≠ i := by
            intro y hy hyi
            have hmem : y ∈ xs.filter (fun a => a.id = i) :=
              List.mem_filter.mpr ⟨hy, by simp [hyi]⟩
            have hpos : 0 < (xs.filter (fun a => a.id = i)).length :=
              List.length_pos_of_mem hmem
            have hc : ((x :: xs).filter (fun a => a.id = i)).length =
                (xs.filter (fun a => a.id = i)).length + 1 := by
              rw [List.filter_cons_of_pos (by simp [hx])]
              simp
            omega
          exact eraseFirstById_of_forall_ne xs i hxs
        · rw [eraseFirstById, if_neg hx]
          have hc : ((x :: xs).filter (fun a => a.id = i)) =
              xs.filter (fun a => a.id = i) :=
            List.filter_cons_of_neg (by simp [hx])
          rw [hc] at hcount
          rw [eraseFirstById, if_neg hx, ih hcount]

/-- Witness for C4: concrete instances of all four conjuncts, on the
empty registry and on the one-entry registry `[sampleMarkerA]`, with the
two id-7 sample entries. -/
theorem c4_registry_witness :
    (sampleMarkerA.id = sampleMarkerB.id) ∧
    (([sampleMarkerA].filter (fun x => x.id = 7)).length ≤ 1) ∧
    (sampleMarkerA ∈ registerMarker [] sampleMarkerA) ∧
    ((registerMarker (registerMarker [] sampleMarkerA) sampleMarkerB).filter
      (fun x => x.id = sampleMarkerB.id) = [sampleMarkerB]) ∧
    (removeMarker [] 5 = []) ∧
    (removeMarker (removeMarker [sampleMarkerA] 7) 7 =
      removeMarker [sampleMarkerA] 7) := by
  obtain ⟨h1, h2, h3, h4⟩ := c4_registry
  refine ⟨rfl, by simp [sampleMarkerA], h1 [] sampleMarkerA,
    h2 [] sampleMarkerA sampleMarkerB rfl (by simp), h3 [] 5 (by simp),
    h4 [sampleMarkerA] 7 (by simp [sampleMarkerA])⟩

/-- The inner matching loop preserves the correspondence invariant:
`projected` holds four points per `found` marker and `world` matches
`projected` in length. -/
theorem foldl_matchStep_invariant (m : ArucoMarker)
    (known : List ArucoMarkerInfo)
    (acc : List (ℝ × ℝ) × List Vec3 × List ArucoMarker)
    (h : acc.1.length = 4 * acc.2.2.length ∧
      acc.2.1.length = acc.1.length) :
    (known.foldl (matchStep m) acc).1.length =
        4 * (known.foldl (matchStep m) acc).2.2.length ∧
      (known.foldl (matchStep m) acc).2.1.length =
        (known.foldl (matchStep m) acc).1.length := by
  induction known generalizing acc with
  | nil => exact h
  | cons j js ih =>
      apply ih
      unfold matchStep
      split
      · simp only [List.length_append, projectedPoints, worldPoints,
          List.length_cons, List.length_nil]
        omega
      · exact h

/-- C7: the per-frame correspondence set built by the matching loop of
lines 176–194 always holds exactly four `(projected, world)` point pairs
per matched marker: `projected.length = 4 · found.length`, the parallel
`world` sequence has the same length, and the set is non-empty exactly
when it holds at least four points. -/
theorem c7_correspondence_multiple_of_four (markers : List ArucoMarker)
    (known : List ArucoMarkerInfo) :
    (frameCorrespondences markers known).1.length =
        4 * (frameCorrespondences markers known).2.2.length ∧
      (frameCorrespondences markers known).2.1.length =
        (frameCorrespondences markers known).1.length ∧
      ((frameCorrespondences markers known).1 ≠ [] ↔
        4 ≤ (frameCorrespondences markers known).1.length) := by
  have main : ∀ (ms : List ArucoMarker)
      (acc : List (ℝ × ℝ) × List Vec3 × List ArucoMarker),
      (acc.1.length = 4 * acc.2.2.length ∧
        acc.2.1.length = acc.1.length) →
      ((ms.foldl (fun acc m => known.foldl (matchStep m) acc) acc).1.length =
          4 * (ms.foldl (fun acc m =>
            known.foldl (matchStep m) acc) acc).2.2.length ∧
        (ms.foldl (fun acc m =>
          known.foldl (matchStep m) acc) acc).2.1.length =
          (ms.foldl (fun acc m =>
            known.foldl (matchStep m) acc) acc).1.length) := by
    intro ms
    induction ms with
    | nil => intro acc h; exact h
    | cons m ms ih =>
        intro acc h
        exact ih _ (foldl_matchStep_invariant m known acc h)
  obtain ⟨h1, h2⟩ := main markers ([], [], []) ⟨rfl, rfl⟩
  have h1' : (frameCorrespondences markers known).1.length =
      4 * (frameCorrespondences markers known).2.2.length := h1
  have h2' : (frameCorrespondences markers known).2.1.length =
      (frameCorrespondences markers known).1.length := h2
  refine ⟨h1', h2', ?_⟩
  rw [ne_eq, ← List.length_eq_zero]
  omega

/-- C6: a frame on which the detector returned zero candidates publishes
`visible = false`, publishes no position, rotation or pose message, and
advances the threshold block size by 2, wrapping to `bmin` when the
advanced value exceeds `bmax` (lines 165–173, 203, 309–312). -/
theorem c6_empty_frame
    (solve : (Fin 9 → ℝ) → (Fin 5 → ℝ) → List Vec3 → List (ℝ × ℝ) →
      Vec3 × Vec3)
    (rodToMat : Vec3 → Matrix (Fin 3) (Fin 3) ℝ)
    (matToRod : Matrix (Fin 3) (Fin 3) ℝ → Vec3)
    (useOpencvCoords : Bool) (cam : CameraState)
    (bmin bmax : Int) (known : List ArucoMarkerInfo) (bs : Int) :
    onFrameStep solve rodToMat matToRod useOpencvCoords cam bmin bmax
        known bs [] =
      { visible := false
        position := none
        rotation := none
        pose := none
        blockSize := if bs + 2 > bmax then bmin else bs + 2 } := by
  rfl

/-- Round trip between column and tuple views of a 3-vector. -/
theorem vecToCol_colToVec (f : Fin 3 → ℝ) : vecToCol (colToVec f) = f := by
  funext i
  fin_cases i <;> simp [vecToCol, colToVec]

/-- C5: the pose-inversion step of lines 214–221.  Writing `R` for the
rotation matrix obtained from the solved rotation vector, the emitted
camera rotation is the axis-angle form of `Rᵀ` and the emitted camera
position is `-(Rᵀ)·t`; moreover, when `R` is orthogonal, the emitted pose
is the inverse of the solved world-to-camera transform: it maps every
camera-frame image `R·w + t` back to `w`, and the emitted camera position
is the point that the solved transform sends to the camera origin. -/
theorem c5_pose_inversion
    (rodToMat : Vec3 → Matrix (Fin 3) (Fin 3) ℝ)
    (matToRod : Matrix (Fin 3) (Fin 3) ℝ → Vec3)
    (rvec tvec : Vec3) (w : Fin 3 → ℝ)
    (horth : (rodToMat rvec).transpose * rodToMat rvec = 1) :
    (invertCameraPose rodToMat matToRod rvec tvec).2 =
      matToRod (rodToMat rvec).transpose ∧
    vecToCol (invertCameraPose rodToMat matToRod rvec tvec).1 =
      -((rodToMat rvec).transpose.mulVec (vecToCol tvec)) ∧
    (rodToMat rvec).transpose.mulVec
        ((rodToMat rvec).mulVec w + vecToCol tvec) +
      vecToCol (invertCameraPose rodToMat matToRod rvec tvec).1 = w ∧
    (rodToMat rvec).mulVec
        (vecToCol (invertCameraPose rodToMat matToRod rvec tvec).1) +
      vecToCol tvec = 0 := by
  have hpos : vecToCol (invertCameraPose rodToMat matToRod rvec tvec).1 =
      -((rodToMat rvec).transpose.mulVec (vecToCol tvec)) := by
    unfold invertCameraPose
    dsimp only
    rw [vecToCol_colToVec]
  refine ⟨rfl, hpos, ?_, ?_⟩
  · rw [hpos, Matrix.mulVec_add, Matrix.mulVec_mulVec, horth,
      Matrix.one_mulVec, add_neg_cancel_right]
  · rw [hpos, Matrix.mulVec_neg, Matrix.mulVec_mulVec,
      Matrix.mul_eq_one_comm.mp horth, Matrix.one_mulVec, neg_add_cancel]

/-- Witness for C5 with identity `Rodrigues` stand-ins, translation
`(5, 6, 7)` and world point `![1, 2, 3]`. -/
theorem c5_pose_inversion_witness :
    (idRodToMat (0, 0, 0)).transpose * idRodToMat (0, 0, 0) = 1 ∧
      ((invertCameraPose idRodToMat zeroMatToRod (0, 0, 0) (5, 6, 7)).2 =
        zeroMatToRod (idRodToMat (0, 0, 0)).transpose ∧
      vecToCol (invertCameraPose idRodToMat zeroMatToRod (0, 0, 0)
          (5, 6, 7)).1 =
        -((idRodToMat (0, 0, 0)).transpose.mulVec (vecToCol (5, 6, 7))) ∧
      (idRodToMat (0, 0, 0)).transpose.mulVec
          ((idRodToMat (0, 0, 0)).mulVec ![1, 2, 3] + vecToCol (5, 6, 7)) +
        vecToCol (invertCameraPose idRodToMat zeroMatToRod (0, 0, 0)
          (5, 6, 7)).1 = ![1, 2, 3] ∧
      (idRodToMat (0, 0, 0)).mulVec
          (vecToCol (invertCameraPose idRodToMat zeroMatToRod (0, 0, 0)
            (5, 6, 7)).1) +
        vecToCol (5, 6, 7) = 0) :=
  ⟨by simp [idRodToMat],
    c5_pose_inversion idRodToMat zeroMatToRod (0, 0, 0) (5, 6, 7) ![1, 2, 3]
      (by simp [idRodToMat])⟩

/-- C8: camera-calibration latching (lines 377–400).  From an
uncalibrated state, the first camera-info message sets the calibration
matrix and the distortion vector and marks the model calibrated; any
sequence of subsequent camera-info messages leaves the state unchanged. -/
theorem c8_calibration_latching (s : CameraState) (m0 : CameraInfoMsg)
    (msgs : List CameraInfoMsg) (h : s.calibrated = false) :
    (onCameraInfo s m0).calibrated = true ∧
    (onCameraInfo s m0).calibration = m0.k ∧
    (onCameraInfo s m0).distortion = m0.d ∧
    msgs.foldl onCameraInfo (onCameraInfo s m0) = onCameraInfo s m0 := by
  have hfirst : onCameraInfo s m0 =
      { calibrated := true, calibration := m0.k, distortion := m0.d } := by
    unfold onCameraInfo
    rw [h]
    simp
  have hfix : ∀ t : CameraState, t.calibrated = true →
      ∀ ms : List CameraInfoMsg, ms.foldl onCameraInfo t = t := by
    intro t ht ms
    induction ms with
    | nil => rfl
    | cons m ms ih =>
        have hstep : onCameraInfo t m = t := by
          unfold onCameraInfo
          rw [ht]
          simp
        rw [List.foldl_cons, hstep, ih]
  exact ⟨by rw [hfirst], by rw [hfirst], by rw [hfirst],
    hfix _ (by rw [hfirst]) msgs⟩

/-- Witness for C8: the uncalibrated sample state, first message
`sampleMsgA`, followed by the message list `[sampleMsgB, sampleMsgA]`. -/
theorem c8_calibration_latching_witness :
    sampleCameraState.calibrated = false ∧
      ((onCameraInfo sampleCameraState sampleMsgA).calibrated = true ∧
      (onCameraInfo sampleCameraState sampleMsgA).calibration =
        sampleMsgA.k ∧
      (onCameraInfo sampleCameraState sampleMsgA).distortion =
        sampleMsgA.d ∧
      [sampleMsgB, sampleMsgA].foldl onCameraInfo
        (onCameraInfo sampleCameraState sampleMsgA) =
        onCameraInfo sampleCameraState sampleMsgA) :=
  ⟨rfl, c8_calibration_latching sampleCameraState sampleMsgA
    [sampleMsgB, sampleMsgA] rfl⟩

/-- On empty input the loop still enters its body — the truncated `pos`
value `2^32 - 1` is not the 64-bit `npos` — takes the empty token, and
`stod` throws; with an exhausted iteration budget it exits normally.  In
both cases no write is performed. -/
theorem stringToDoubleArrayAux_nil (stod : List Char → Option ℝ)
    (d : Char) (r k : Nat) (hstod : stod [] = none) :
    stringToDoubleArrayAux stod [] [d] r k = ([], r != 0) := by
  cases r with
  | zero => rfl
  | succ r =>
      have hfind : findSub [] [d] = none := rfl
      have hpos : posAssign (findSub [] [d]) ≠ npos := by
        rw [hfind]
        norm_num [posAssign, npos]
      rw [stringToDoubleArrayAux]
      dsimp only
      rw [if_neg hpos, List.take_nil, hstod]
      simp

/-- The distortion-override block aborts for any non-empty override
string: the freshly declared inner `string data;` shadows the parameter,
the parser receives the empty string, the truncated-`npos` test does not
exit the loop, and `stod("")` throws out of `main` before the distortion
matrix or the calibrated flag is touched. -/
theorem distortionOverride_throws (stod : List Char → Option ℝ)
    (s : List Char) (values : Fin 5 → ℝ) (st : CameraState)
    (hstod : stod [] = none) (h : s ≠ []) :
    distortionOverride stod s values st = none := by
  have hrun : stringToDoubleArrayRun stod [] ['_'] 5 = ([], true) := by
    rw [stringToDoubleArrayRun,
      stringToDoubleArrayAux_nil stod '_' 5 0 hstod]
    rfl
  unfold distortionOverride
  rw [if_pos h]
  dsimp only
  rw [hrun]
  rfl

/-- Counterexample to C9 as stated: on the non-empty override string
`"1"` the configuration path yields no camera state at all —
`stod("")` throws `std::invalid_argument` out of `main` — so in
particular the calibrated flag is never set, contrary to the claim. -/
theorem c9_counterexample :
    distortionOverride sampleStod ['1'] (fun _ => 0) sampleCameraState =
      none ∧
    (distortionOverride sampleStod ['1'] (fun _ => 0)
        sampleCameraState).map CameraState.calibrated ≠ some true := by
  have h : distortionOverride sampleStod ['1'] (fun _ => 0)
      sampleCameraState = none :=
    distortionOverride_throws sampleStod ['1'] (fun _ => 0)
      sampleCameraState rfl (by decide)
  exact ⟨h, by rw [h]; simp⟩

/-- C9 (amended): the distortion-override configuration path
(lines 528–543) never reads the configured string's numeric content: the
parser is handed the freshly declared empty local `string data;`, so any
two non-empty override strings lead to identical behaviour — but that
behaviour is an uncaught `std::invalid_argument` thrown by `stod("")`
(`stod` fails on the empty string), which escapes `main` before
lines 537–542, so neither the distortion matrix nor the calibrated flag
is ever written. -/
theorem c9_distortion_override_throws (stod : List Char → Option ℝ)
    (s1 s2 : List Char) (values : Fin 5 → ℝ) (st : CameraState)
    (hstod : stod [] = none) (h1 : s1 ≠ []) (h2 : s2 ≠ []) :
    distortionOverride stod s1 values st =
      distortionOverride stod s2 values st ∧
    distortionOverride stod s1 values st = none := by
  have e1 := distortionOverride_throws stod s1 values st hstod h1
  have e2 := distortionOverride_throws stod s2 values st hstod h2
  exact ⟨e1.trans e2.symm, e1⟩

/-- Witness for C9: the distinct override strings `"1"` and `"2"` both
abort the process identically. -/
theorem c9_distortion_override_throws_witness :
    sampleStod [] = none ∧
    (['1'] : List Char) ≠ [] ∧ (['2'] : List Char) ≠ [] ∧
      (distortionOverride sampleStod ['1'] (fun _ => 0)
          sampleCameraState =
        distortionOverride sampleStod ['2'] (fun _ => 0)
          sampleCameraState ∧
      distortionOverride sampleStod ['1'] (fun _ => 0)
        sampleCameraState = none) :=
  ⟨rfl, by decide, by decide,
    c9_distortion_override_throws sampleStod ['1'] ['2'] (fun _ => 0)
      sampleCameraState rfl (by decide) (by decide)⟩

/-- A single-character delimiter does not occur in a string that does not
contain the character. -/
theorem findSub_eq_none_of_not_mem (d : Char) (data : List Char)
    (h : d ∉ data) : findSub data [d] = none := by
  induction data with
  | nil => rfl
  | cons x xs ih =>
      rw [findSub]
      have hdx : d ≠ x := fun hdx => h (hdx ▸ List.mem_cons_self x xs)
      rw [if_neg (by simp [List.isPrefixOf, hdx])]
      rw [ih fun hm => h (List.mem_cons_of_mem x hm)]
      rfl

/-- The first occurrence of a single-character delimiter after a clean
prefix is at the prefix's length. -/
theorem findSub_append_cons (d : Char) (pre post : List Char)
    (h : d ∉ pre) : findSub (pre ++ d :: post) [d] = some pre.length := by
  induction pre with
  | nil =>
      rw [List.nil_append, findSub, if_pos (by simp [List.isPrefixOf])]
      rfl
  | cons x xs ih =>
      rw [List.cons_append, findSub]
      have hdx : d ≠ x := fun hdx => h (hdx ▸ List.mem_cons_self x xs)
      rw [if_neg (by simp [List.isPrefixOf, hdx])]
      rw [ih fun hm => h (List.mem_cons_of_mem x hm)]
      rfl

/-- The loop on an intercalated field list with a clean single-character
delimiter writes every field — the final one included, taken by the
clamped `substr(0, 2^32 - 1)` after the truncated-`npos` assignment — to
the consecutive slots starting at `k`; with iteration budget
`fields.length + extra` it then exits normally when `extra = 0` and
throws from `stod("")` on the emptied string when `extra > 0`. -/
theorem stringToDoubleArrayAux_intercalate (stod : List Char → Option ℝ)
    (d : Char) (hstod : stod [] = none) :
    ∀ fields : List (List Char),
    (∀ f ∈ fields, d ∉ f) → (∀ f ∈ fields, stod f ≠ none) →
    fields ≠ [] → (List.intercalate [d] fields).length < 2 ^ 32 →
    ∀ (extra k : Nat),
    stringToDoubleArrayAux stod (List.intercalate [d] fields) [d]
        (fields.length + extra) k =
      (((List.range fields.length).map (· + k)).zip fields,
        extra != 0) := by
  intro fields
  induction fields with
  | nil => intro _ _ hne _; exact absurd rfl hne
  | cons f fs ih =>
      intro hf hp hne hlen extra k
      cases fs with
      | nil =>
          have hone : List.intercalate [d] [f] = f := by
            simp [List.intercalate]
          rw [hone] at hlen ⊢
          rw [show ([f] : List (List Char)).length + extra = extra + 1
            from by simp; omega]
          rw [stringToDoubleArrayAux]
          dsimp only
          have hfind : findSub f [d] = none :=
            findSub_eq_none_of_not_mem d f (hf f (by simp))
          rw [hfind]
          have hpow : (2 : Nat) ^ 32 = 4294967296 := by norm_num
          rw [hpow] at hlen
          have hpa : posAssign (none : Option Nat) = 4294967295 := by
            norm_num [posAssign, npos]
          rw [hpa]
          rw [if_neg (by norm_num [npos])]
          rw [List.take_of_length_le (by omega)]
          obtain ⟨v, hv⟩ :=
            Option.ne_none_iff_exists'.mp (hp f (by simp))
          rw [hv]
          dsimp only
          simp only [List.length_singleton]
          rw [List.drop_eq_nil_of_le (by omega),
            stringToDoubleArrayAux_nil stod d extra (k + 1) hstod]
          rw [show List.range 1 = [0] from rfl]
          simp
      | cons f' fs' =>
          have hstep : List.intercalate [d] (f :: f' :: fs') =
              f ++ d :: List.intercalate [d] (f' :: fs') := by
            rw [show List.intercalate [d] (f :: f' :: fs') =
              f ++ [d] ++ List.intercalate [d] (f' :: fs') by
                simp [List.intercalate, List.intersperse_cons_cons]]
            simp
          have hpow : (2 : Nat) ^ 32 = 4294967296 := by norm_num
          rw [hstep, hpow] at hlen
          simp only [List.length_append, List.length_cons] at hlen
          have hflen : f.length < 4294967296 := by omega
          rw [show (f :: f' :: fs').length + extra =
            ((f' :: fs').length + extra) + 1 from by simp; omega]
          rw [hstep, stringToDoubleArrayAux]
          dsimp only
          rw [findSub_append_cons d f _ (hf f (by simp))]
          have hpa : posAssign (some f.length) = f.length := by
            simp only [posAssign]
            rw [hpow]
            exact Nat.mod_eq_of_lt hflen
          rw [hpa]
          rw [if_neg (by rw [npos]; omega)]
          rw [List.take_left]
          obtain ⟨v, hv⟩ :=
            Option.ne_none_iff_exists'.mp (hp f (by simp))
          rw [hv]
          dsimp only
          simp only [List.length_singleton]
          have hdrop : (f ++ d :: List.intercalate [d] (f' :: fs')).drop
              (f.length + 1) = List.intercalate [d] (f' :: fs') := by
            rw [show f ++ d :: List.intercalate [d] (f' :: fs') =
              (f ++ [d]) ++ List.intercalate [d] (f' :: fs') by simp]
            exact List.drop_left' (by simp)
          rw [hdrop]
          have hfs : ∀ g ∈ f' :: fs', d ∉ g := fun g hg =>
            hf g (List.mem_cons_of_mem f hg)
          have hps : ∀ g ∈ f' :: fs', stod g ≠ none := fun g hg =>
            hp g (List.mem_cons_of_mem f hg)
          have hlen' : (List.intercalate [d] (f' :: fs')).length <
              2 ^ 32 := by
            rw [hpow]
            omega
          rw [ih hfs hps (by simp) hlen' extra (k + 1)]
          rw [show (f :: f' :: fs').length = (f' :: fs').length + 1
            from rfl]
          rw [List.range_succ_eq_map]
          have hmaps :
              ((List.range (f' :: fs').length).map Nat.succ).map (· + k) =
              (List.range (f' :: fs').length).map (· + (k + 1)) := by
            rw [List.map_map]
            exact List.map_congr_left fun a _ => by
              simp [Function.comp, Nat.succ_eq_add_one]
              omega
          rw [List.map_cons, hmaps, List.zip_cons_cons, Nat.zero_add]

/-- Counterexample to C10 as stated: on the two-field input `"1_2"` with
`count = 2 ≥ n = 2`, the loop writes the final field `"2"` to slot
`n - 1 = 1` — the truncated 32-bit `pos` never equals the 64-bit
`string::npos`, so the claimed "not found" exit never fires and the final
field IS parsed — refuting "only the first n-1 output slots are
written". -/
theorem c10_counterexample :
    (stringToDoubleArrayRun sampleStod ['1', '_', '2'] ['_'] 2).1 =
      [(0, ['1']), (1, ['2'])] ∧
    (1, ['2']) ∈ (stringToDoubleArrayRun sampleStod ['1', '_', '2']
      ['_'] 2).1 ∧
    ¬ (∀ wr ∈ (stringToDoubleArrayRun sampleStod ['1', '_', '2']
        ['_'] 2).1, wr.1 < 1) ∧
    (stringToDoubleArrayRun sampleStod ['1', '_', '2'] ['_'] 2).2 =
      false := by
  refine ⟨rfl, ?_, ?_, rfl⟩
  · rw [show (stringToDoubleArrayRun sampleStod ['1', '_', '2']
      ['_'] 2).1 = [(0, ['1']), (1, ['2'])] from rfl]
    simp
  · intro hall
    have := hall (1, ['2'])
      (by rw [show (stringToDoubleArrayRun sampleStod ['1', '_', '2']
        ['_'] 2).1 = [(0, ['1']), (1, ['2'])] from rfl]; simp)
    omega

/-- C10 (amended): because the `unsigned int pos` of line 450 truncates
the 64-bit `string::npos`, the "delimiter not found" exit of
`stringToDoubleArray` (lines 448–459) never fires; the loop instead
writes one token per iteration until `count` slots are filled or `stod`
throws.  For `n ≥ 1` parseable delimiter-separated fields with no
trailing delimiter and `count = n`, all `n` fields — the final field
included — are written to slots `0 … n-1` and the loop exits normally;
for `count > n` the same `n` writes happen and the next iteration throws
`std::invalid_argument` from `stod("")`; and on the empty string with
positive `count`, `stod("")` throws immediately, with no slot written. -/
theorem c10_stringToDoubleArray_truncation (stod : List Char → Option ℝ)
    (d : Char) (fields : List (List Char)) (extra : Nat)
    (hstod : stod [] = none)
    (hf : ∀ f ∈ fields, d ∉ f)
    (hp : ∀ f ∈ fields, stod f ≠ none)
    (hne : fields ≠ [])
    (hlen : (List.intercalate [d] fields).length < 2 ^ 32) :
    stringToDoubleArrayRun stod (List.intercalate [d] fields) [d]
        fields.length =
      ((List.range fields.length).zip fields, false) ∧
    stringToDoubleArrayRun stod (List.intercalate [d] fields) [d]
        (fields.length + (extra + 1)) =
      ((List.range fields.length).zip fields, true) ∧
    stringToDoubleArrayRun stod [] [d] (extra + 1) = ([], true) := by
  have h1 := stringToDoubleArrayAux_intercalate stod d hstod fields
    hf hp hne hlen 0 0
  have h2 := stringToDoubleArrayAux_intercalate stod d hstod fields
    hf hp hne hlen (extra + 1) 0
  have hmap0 : (List.range fields.length).map (· + 0) =
      List.range fields.length := by
    simp
  rw [hmap0] at h1 h2
  refine ⟨?_, ?_, ?_⟩
  · rw [stringToDoubleArrayRun]
    simpa using h1
  · rw [stringToDoubleArrayRun]
    simpa using h2
  · rw [stringToDoubleArrayRun,
      stringToDoubleArrayAux_nil stod d (extra + 1) 0 hstod]
    simp

/-- Witness for C10: delimiter `'_'`, fields `"1"`, `"2"`, `"3"` parsed
by the sample `stod`: with `count = 3` all three fields land in slots
0–2 and the loop exits normally; with `count = 4` the same writes happen
and the run throws; the empty string throws at once with no write. -/
theorem c10_stringToDoubleArray_truncation_witness :
    sampleStod [] = none ∧
    (∀ f ∈ [['1'], ['2'], ['3']], '_' ∉ f) ∧
    (∀ f ∈ [['1'], ['2'], ['3']], sampleStod f ≠ none) ∧
    ([['1'], ['2'], ['3']] : List (List Char)) ≠ [] ∧
    (List.intercalate ['_'] [['1'], ['2'], ['3']]).length < 2 ^ 32 ∧
    (stringToDoubleArrayRun sampleStod
        (List.intercalate ['_'] [['1'], ['2'], ['3']]) ['_']
        ([['1'], ['2'], ['3']] : List (List Char)).length =
      ((List.range ([['1'], ['2'], ['3']] : List (List Char)).length).zip
        [['1'], ['2'], ['3']], false) ∧
    stringToDoubleArrayRun sampleStod
        (List.intercalate ['_'] [['1'], ['2'], ['3']]) ['_']
        (([['1'], ['2'], ['3']] : List (List Char)).length + (0 + 1)) =
      ((List.range ([['1'], ['2'], ['3']] : List (List Char)).length).zip
        [['1'], ['2'], ['3']], true) ∧
    stringToDoubleArrayRun sampleStod [] ['_'] (0 + 1) = ([], true)) :=
  ⟨rfl, by decide, by intro f hfm; fin_cases hfm <;> simp [sampleStod],
    by decide, by decide,
    c10_stringToDoubleArray_truncation sampleStod '_'
      [['1'], ['2'], ['3']] 0 rfl (by decide)
      (by intro f hfm; fin_cases hfm <;> simp [sampleStod])
      (by decide) (by decide)⟩

end ArucoNode
